import Mathlib

/-!
Shallow embedding of the pricing-extraction pipeline of the
notification-data-store repository (backend/app/parser): the validation
schemas, the candidate filter, the oracle (LLM) client failover logic, the
persistence layer, the offset manager and one cycle of the polling driver.
Python floats are modelled as rationals, UUIDs and timestamps as naturals,
database tables as lists of rows, and the external oracle as an explicit
stream of replies indexed by call number.
-/

namespace NDS

/-- Tolerance used by the total-kg consistency check
(Python default argument 0.1 in schemas.py). -/
def TOTAL_KG_TOLERANCE : ℚ := 1/10

/-- Parser version constant from config.py. -/
def PARSER_VERSION : String := "pricing_v3_textprio"

/-- A single pricing line item (schemas.PricingItem). -/
structure PricingItem where
  size : Option String
  grade : Option String
  quantity_kg : Option ℚ
  price_per_kg : Option ℚ
deriving DecidableEq, Repr

/-- Field validators of PricingItem: quantity_kg and price_per_kg must be
non-negative when present (schemas.PricingItem.must_be_positive). -/
def PricingItem.fieldsValid (it : PricingItem) : Bool :=
  (match it.quantity_kg with
   | none => true
   | some q => decide (0 ≤ q)) &&
  (match it.price_per_kg with
   | none => true
   | some p => decide (0 ≤ p))

/-- schemas.PricingItem.is_complete: price present AND (quantity or size
present). -/
def PricingItem.is_complete (it : PricingItem) : Bool :=
  it.price_per_kg.isSome && (it.quantity_kg.isSome || it.size.isSome)

/-- A single pricing offer from one supplier (schemas.Offer). -/
structure Offer where
  supplier : Option String
  product : Option String
  currency : Option String
  total_kg : Option ℚ
  items : List PricingItem
deriving DecidableEq, Repr

/-- schemas.Offer.complete_items. -/
def Offer.complete_items (o : Offer) : List PricingItem :=
  o.items.filter (fun it => it.is_complete)

/-- The sum computed inside check_total_kg_consistency:
`sum(item.quantity_kg for item in complete if item.quantity_kg)` — the
generator keeps only truthy quantities (present and nonzero). -/
def Offer.items_sum_src (o : Offer) : ℚ :=
  (o.complete_items.filterMap (fun it =>
    match it.quantity_kg with
    | none => none
    | some q => if q = 0 then none else some q)).sum

/-- schemas.Offer.check_total_kg_consistency: True if total_kg is None;
if the item sum is zero, total_kg must equal 0 exactly; else the relative
gap must be within the tolerance. -/
def Offer.check_total_kg_consistency (o : Offer) (tolerance : ℚ) : Bool :=
  match o.total_kg with
  | none => true
  | some t =>
    let items_sum := o.items_sum_src
    if items_sum = 0 then decide (t = 0)
    else decide (|t - items_sum| / items_sum ≤ tolerance)

/-- Top-level extraction result (schemas.PricingExtraction): a list of
offers and a confidence. -/
structure PricingExtraction where
  offers : List Offer
  confidence : ℚ
deriving DecidableEq, Repr

/-- Outcome of `PricingExtraction.model_validate`: succeeds exactly when
confidence lies in [0,1] and every item satisfies its field validators
(schemas.PricingExtraction.confidence_in_range plus the item validators). -/
def validateExtraction (r : PricingExtraction) : Bool :=
  decide (0 ≤ r.confidence) && decide (r.confidence ≤ 1) &&
  r.offers.all (fun o => o.items.all (fun it => it.fieldsValid))

/-- Modelled from the claim wording (C10): the consistency check stated with
the plain sum of the complete items quantity values (absent = 0). Compared
against the source definition in the C10 theorem. -/
def claimTotalKgCheck (o : Offer) : Bool :=
  match o.total_kg with
  | none => true
  | some t =>
    let s : ℚ := (o.complete_items.map (fun it => it.quantity_kg.getD 0)).sum
    if s = 0 then decide (t = 0)
    else decide (|t - s| / s ≤ TOTAL_KG_TOLERANCE)

/-! ## Candidate filter (candidate_filter.py) -/

/-- The relevant parser configuration (config.py): the three allowlists are
already lowercased by `_parse_csv`, the text-heuristic toggle, batch size and
parser name. -/
structure ParserConfig where
  source_filter : List String
  package_filter : List String
  app_filter : List String
  text_filter_enabled : Bool
  batch_size : Nat
  parser_name : String
deriving DecidableEq, Repr

/-- Python `(x or "")` on an optional string. -/
def orEmpty (x : Option String) : String := x.getD ""

/-- Python str.lower, modelled characterwise on the underlying list (the
byte-position based String.toLower of the library is not
kernel-reducible). -/
def pyLower (s : String) : String := ⟨s.data.map Char.toLower⟩

/-- Does the haystack start with the needle (character lists)? -/
def charsStartWith : List Char → List Char → Bool
  | _, [] => true
  | [], _ :: _ => false
  | h :: hs, n :: ns => h == n && charsStartWith hs ns

/-- Does the needle occur anywhere in the haystack (character lists)? -/
def charsContain (hay needle : List Char) : Bool :=
  match hay with
  | [] => needle.isEmpty
  | _ :: rest => charsStartWith hay needle || charsContain rest needle

/-- Python substring containment `needle in hay`. -/
def strContainsSub (hay needle : String) : Bool :=
  charsContain hay.data needle.data

/-- candidate_filter._passes_metadata_filter: each non-empty allowlist is an
independent gate on the lowercased field (None read as ""). -/
def passes_metadata_filter (cfg : ParserConfig)
    (source_type package_name app_name : Option String) : Bool :=
  if !cfg.source_filter.isEmpty
      && !cfg.source_filter.contains (pyLower (orEmpty source_type)) then false
  else if !cfg.package_filter.isEmpty
      && !cfg.package_filter.contains (pyLower (orEmpty package_name)) then false
  else if !cfg.app_filter.isEmpty
      && !cfg.app_filter.contains (pyLower (orEmpty app_name)) then false
  else true

/-- The regex `\d+\.?\d*` used by the text heuristic matches somewhere in a
string exactly when the string contains a digit. -/
def numericPatternFound (s : String) : Bool :=
  s.data.any (fun c => c.isDigit)

/-- Python `not combined.strip()`: every character is whitespace. -/
def strBlank (s : String) : Bool :=
  s.data.all (fun c => c.isWhitespace)

/-- candidate_filter._passes_text_heuristic: join the three fields with
spaces, lowercase; fail on blank text, require a numeric token and the
substring "kg". -/
def passes_text_heuristic (title text big_text : Option String) : Bool :=
  let combined :=
    pyLower (orEmpty title ++ " " ++ orEmpty text ++ " " ++ orEmpty big_text)
  if strBlank combined then false
  else if !numericPatternFound combined then false
  else if strContainsSub combined "kg" then true
  else false

/-- candidate_filter.is_pricing_candidate: metadata gate, then the optional
text heuristic. -/
def is_pricing_candidate (cfg : ParserConfig)
    (source_type package_name app_name title text big_text : Option String) :
    Bool :=
  if !passes_metadata_filter cfg source_type package_name app_name then false
  else if cfg.text_filter_enabled then passes_text_heuristic title text big_text
  else true

/-! ## Oracle client failover (llm_client.call_llm) -/

/-- What the network does for one endpoint attempt: the connection is
refused or times out (httpx.ConnectError / ConnectTimeout), the request
fails after connecting (any other httpx.HTTPError, e.g. a non-success
status), or an HTTP response arrives whose content either fails JSON
parsing (`none`) or parses to a payload. -/
inductive AttemptResult where
  | connectFail
  | httpError
  | success (parsed : Option PricingExtraction)
deriving DecidableEq, Repr

/-- Result of call_llm: raise LLMUnavailableError, return None, or return
the parsed payload. -/
inductive CallResult where
  | unavailable
  | noResult
  | ok (r : PricingExtraction)
deriving DecidableEq, Repr

/-- llm_client.call_llm builds the endpoint list: primary, then the
fallback when it is set (non-empty string) and distinct. -/
def buildEndpoints (primary fallback : String) : List String :=
  [primary] ++ (if fallback ≠ "" ∧ fallback ≠ primary then [fallback] else [])

/-- The endpoint loop of call_llm over the per-endpoint attempt results, in
order: a connect failure advances to the next endpoint; any other HTTP error
returns None at once; a response returns None on a JSON parse failure and
the payload otherwise; exhausting the list raises LLMUnavailableError. -/
def attemptLoop : List AttemptResult → CallResult
  | [] => .unavailable
  | .connectFail :: rest => attemptLoop rest
  | .httpError :: _ => .noResult
  | .success none :: _ => .noResult
  | .success (some r) :: _ => .ok r

/-- llm_client.call_llm, with the network behaviour given per endpoint. -/
def call_llm (primary fallback : String) (net : String → AttemptResult) :
    CallResult :=
  attemptLoop ((buildEndpoints primary fallback).map net)

/-! ## Offset manager (offset.py) -/

/-- One row of the parser_offsets table (the updated_at timestamp is not
modelled; no claim depends on it). -/
structure OffsetRow where
  parser_name : String
  last_seq : Nat
deriving DecidableEq, Repr

/-- First-match lookup of a cursor value by parser name. -/
def lookupOffset (rows : List OffsetRow) (name : String) : Option Nat :=
  (rows.find? (fun r => r.parser_name == name)).map (fun r => r.last_seq)

/-- offset.get_current_offset: return the stored cursor, creating (and
committing) a row at 0 on first run. Returns the value and the table. -/
def get_current_offset (rows : List OffsetRow) (name : String) :
    Nat × List OffsetRow :=
  match lookupOffset rows name with
  | some s => (s, rows)
  | none => (0, rows ++ [⟨name, 0⟩])

/-- offset.update_offset: an unconditional SQL UPDATE of last_seq for the
named parser — there is no check against the stored value and no failure
path. -/
def update_offset (rows : List OffsetRow) (name : String) (new_seq : Nat) :
    List OffsetRow :=
  rows.map (fun r =>
    if r.parser_name = name then { r with last_seq := new_seq } else r)

/-- offset.reset_offset: set the cursor to 0, creating the row if the
UPDATE matched nothing. -/
def reset_offset (rows : List OffsetRow) (name : String) : List OffsetRow :=
  if (rows.find? (fun r => r.parser_name == name)).isSome then
    rows.map (fun r =>
      if r.parser_name = name then { r with last_seq := 0 } else r)
  else rows ++ [⟨name, 0⟩]

/-! ## Persistence layer (persistence.py, models.py) -/

/-- One row of the structured_prices table. UUIDs are naturals, timestamps
naturals, the JSONB llm_raw_response carries the oracle payload (the
injected _llm_meta side channel is not modelled; no claim depends on it).
The DB-generated id and created_at columns are not modelled. -/
structure StructuredPrice where
  raw_event_id : Nat
  seq : Nat
  parser_version : String
  supplier : Option String
  product : Option String
  product_grade : Option String
  size : Option String
  quantity_kg : Option ℚ
  price_per_kg : Option ℚ
  currency : Option String
  total_kg : Option ℚ
  event_timestamp : Nat
  confidence : ℚ
  llm_raw_response : PricingExtraction
deriving DecidableEq, Repr

/-- The row built inside the insert loop of persistence.persist_extraction
for one offer and one of its complete items. -/
def mkStructuredPrice (raw_event_id seq event_timestamp : Nat)
    (extraction llm_raw_response : PricingExtraction)
    (offer : Offer) (item : PricingItem) : StructuredPrice :=
  { raw_event_id := raw_event_id
    seq := seq
    parser_version := PARSER_VERSION
    supplier := offer.supplier
    product := offer.product
    product_grade := item.grade
    size := item.size
    quantity_kg := item.quantity_kg
    price_per_kg := item.price_per_kg
    currency := offer.currency
    total_kg := offer.total_kg
    event_timestamp := event_timestamp
    confidence := extraction.confidence
    llm_raw_response := llm_raw_response }

/-- The rows inserted by persist_extraction: one per complete item per
offer, in iteration order. -/
def extractionRows (raw_event_id seq event_timestamp : Nat)
    (extraction llm_raw_response : PricingExtraction) :
    List StructuredPrice :=
  extraction.offers.flatMap (fun o =>
    o.complete_items.map
      (mkStructuredPrice raw_event_id seq event_timestamp
        extraction llm_raw_response o))

/-- persistence.persist_extraction on the structured_prices table: delete
every row with this raw_event_id, then insert one row per complete item per
offer. Returns the table and rows_inserted. -/
def persist_extraction (prices : List StructuredPrice)
    (raw_event_id seq event_timestamp : Nat)
    (extraction llm_raw_response : PricingExtraction) :
    List StructuredPrice × Nat :=
  let remaining := prices.filter (fun r => !(r.raw_event_id == raw_event_id))
  let newRows := extractionRows raw_event_id seq event_timestamp
    extraction llm_raw_response
  (remaining ++ newRows, newRows.length)

/-! ## Dead-letter sink (dead_letter.py) -/

/-- One row of the pricing_dead_letter table (id and created_at columns not
modelled). -/
structure DeadLetter where
  raw_event_id : Nat
  seq : Nat
  parser_version : String
  error_type : String
  error_message : String
  llm_raw_response : Option PricingExtraction
  original_text : Option String
deriving DecidableEq, Repr

/-! ## Polling driver (service.py) -/

/-- A raw_events row as read by the parser (models.RawEvent). -/
structure RawEvent where
  id : Nat
  seq : Nat
  source_type : Option String
  package_name : Option String
  app_name : Option String
  title : Option String
  text : Option String
  big_text : Option String
  event_timestamp : Nat
deriving DecidableEq, Repr

/-- Python truthiness of an optional string: present and non-empty. -/
def strTruthy (x : Option String) : Bool :=
  match x with
  | none => false
  | some s => s != ""

/-- service._get_combined_text: labelled, newline-joined snapshot of the
truthy text fields. -/
def get_combined_text (ev : RawEvent) : String :=
  let parts :=
    (if strTruthy ev.title then ["Title: " ++ orEmpty ev.title] else []) ++
    (if strTruthy ev.text then ["Text: " ++ orEmpty ev.text] else []) ++
    (if strTruthy ev.big_text then ["BigText: " ++ orEmpty ev.big_text] else [])
  String.intercalate "\n" parts

/-- The dead-letter row built by dead_letter.insert_dead_letter for an
event; the service always passes the combined text snapshot. -/
def mkDeadLetter (ev : RawEvent) (error_type error_message : String)
    (llm_raw_response : Option PricingExtraction) : DeadLetter :=
  { raw_event_id := ev.id
    seq := ev.seq
    parser_version := PARSER_VERSION
    error_type := error_type
    error_message := error_message
    llm_raw_response := llm_raw_response
    original_text := some (get_combined_text ev) }

/-- Opaque stand-in for the text of pydantic ValidationError (str(e)); no
claim depends on its content. -/
def validationErrorMsg (_r : PricingExtraction) : String :=
  "validation error"

/-- One reply of the external oracle for one call_llm invocation, as seen
by the service: the call raised LLMUnavailableError, returned None
(protocol error or unparseable output), or returned a parsed payload. -/
inductive OracleReply where
  | unavailable
  | noResult
  | output (r : PricingExtraction)
deriving DecidableEq, Repr

/-- A Python exception escaping _process_event. -/
inductive PyError where
  | llmUnavailable
  | attributeError
deriving DecidableEq, Repr

/-- Result of _process_event: it returned True, or an exception escaped
to the top-level handler of the polling loop. -/
inductive ProcResult where
  | ok
  | raised (e : PyError)
deriving DecidableEq, Repr

/-- Pending (uncommitted) session writes accumulated during a batch. -/
structure Pending where
  prices : List StructuredPrice
  dead_letters : List DeadLetter
deriving DecidableEq, Repr

/-- Shorthand for is_pricing_candidate applied to the fields of an event. -/
def isCand (cfg : ParserConfig) (ev : RawEvent) : Bool :=
  is_pricing_candidate cfg ev.source_type ev.package_name ev.app_name
    ev.title ev.text ev.big_text

/-- Lines 101-160 of service._process_event, from validation onward.
When model_validate succeeds, line 141 evaluates
`extraction.check_total_kg_consistency()`; PricingExtraction defines no such
attribute (the method is defined on Offer, schemas.py line 41), so Python
raises AttributeError there and the persist_extraction call below that line
is unreachable. On a ValidationError the oracle is called once more: a None
reply dead-letters with the first error, an invalid second payload
dead-letters with the second error, a valid second payload reaches the same
AttributeError. -/
def processValidation (oracle : Nat → OracleReply) (ev : RawEvent)
    (k : Nat) (pend : Pending) (llm_response : PricingExtraction) :
    ProcResult × Pending × Nat :=
  if validateExtraction llm_response then
    (.raised .attributeError, pend, k)
  else
    match oracle k with
    | .unavailable => (.raised .llmUnavailable, pend, k + 1)
    | .noResult =>
      (.ok,
       { pend with dead_letters := pend.dead_letters ++
          [mkDeadLetter ev "validation_error" (validationErrorMsg llm_response)
            (some llm_response)] },
       k + 1)
    | .output r2 =>
      if validateExtraction r2 then
        (.raised .attributeError, pend, k + 1)
      else
        (.ok,
         { pend with dead_letters := pend.dead_letters ++
            [mkDeadLetter ev "validation_error" (validationErrorMsg r2)
              (some r2)] },
         k + 1)

/-- service._process_event: skip non-candidates; call the oracle, retrying
once on a None reply; dead-letter with llm_error after two None replies;
otherwise validate (processValidation). The oracle is an explicit reply
stream and k counts the calls made so far. -/
def processEvent (cfg : ParserConfig) (oracle : Nat → OracleReply)
    (ev : RawEvent) (k : Nat) (pend : Pending) :
    ProcResult × Pending × Nat :=
  if !isCand cfg ev then
    (.ok, pend, k)
  else
    match oracle k with
    | .unavailable => (.raised .llmUnavailable, pend, k + 1)
    | .noResult =>
      match oracle (k + 1) with
      | .unavailable => (.raised .llmUnavailable, pend, k + 2)
      | .noResult =>
        (.ok,
         { pend with dead_letters := pend.dead_letters ++
            [mkDeadLetter ev "llm_error" "LLM failed after 2 attempts" none] },
         k + 2)
      | .output r => processValidation oracle ev (k + 2) pend r
    | .output r => processValidation oracle ev (k + 1) pend r

/-- The storage state visible to one polling cycle. -/
structure DB where
  raw_events : List RawEvent
  prices : List StructuredPrice
  dead_letters : List DeadLetter
  offsets : List OffsetRow
deriving DecidableEq, Repr

/-- Seq-ordering relation used to model ORDER BY seq ASC. -/
def seqLE (a b : RawEvent) : Prop := a.seq ≤ b.seq

instance : DecidableRel seqLE :=
  fun a b => inferInstanceAs (Decidable (a.seq ≤ b.seq))

instance : IsTotal RawEvent seqLE := ⟨fun a b => Nat.le_total a.seq b.seq⟩

instance : IsTrans RawEvent seqLE := ⟨fun _ _ _ => Nat.le_trans⟩

/-- One dimension of the SQL-level metadata filter: when the allowlist is
non-empty a WHERE clause `lower(col) IN (...)` is added, under which a NULL
column never matches. -/
def sqlDimMatch (allow : List String) (v : Option String) : Bool :=
  allow.isEmpty ||
    (match v with
     | none => false
     | some s => allow.contains (pyLower s))

/-- The conjunction of the three SQL-level WHERE clauses of the fetch in
service.run (lines 213-224). -/
def sqlMetadataMatch (cfg : ParserConfig) (ev : RawEvent) : Bool :=
  sqlDimMatch cfg.source_filter ev.source_type &&
  sqlDimMatch cfg.package_filter ev.package_name &&
  sqlDimMatch cfg.app_filter ev.app_name

/-- The batch fetch of service.run: rows with seq above the cursor matching
the server-side allowlists, ordered by seq ascending, limited to the batch
size. -/
def fetchBatch (cfg : ParserConfig) (db : DB) (off : Nat) : List RawEvent :=
  (List.insertionSort seqLE
    (db.raw_events.filter
      (fun e => decide (off < e.seq) && sqlMetadataMatch cfg e))).take
    cfg.batch_size

/-- Maximum of a list of seq values, as Option (SQL max, NULL when the
table is empty). -/
def maxSeqList : List Nat → Option Nat
  | [] => none
  | x :: xs =>
    some (match maxSeqList xs with
          | none => x
          | some m => Nat.max x m)

/-- `select max(seq) from raw_events` in the gap-skip branch of
service.run. -/
def globalMaxSeq (db : DB) : Option Nat :=
  maxSeqList (db.raw_events.map (fun e => e.seq))

/-- The for-loop over the fetched events in service.run (lines 252-259):
process each event in order, tracking the pending writes, the oracle call
count and max_seq; an escaping exception stops the loop with the error.
(_process_event never returns False — each of its paths returns True — so
the explicit `if not success` rollback branch at line 254 is dead code.) -/
def processBatch (cfg : ParserConfig) (oracle : Nat → OracleReply) :
    List RawEvent → Nat → Pending → Nat →
    Option PyError × Pending × Nat × Nat
  | [], k, pend, maxSeq => (none, pend, k, maxSeq)
  | ev :: rest, k, pend, maxSeq =>
    match processEvent cfg oracle ev k pend with
    | (.ok, pend1, k1) => processBatch cfg oracle rest k1 pend1 ev.seq
    | (.raised e, pend1, k1) => (some e, pend1, k1, maxSeq)

/-- Result of one iteration of the polling loop: the committed storage
state, the total oracle calls made, and whether the iteration ended in a
sleep before the next poll. -/
structure CycleResult where
  db : DB
  k : Nat
  slept : Bool
deriving DecidableEq, Repr

/-- The commit performed by update_offset at the end of a fully successful
batch: all pending session writes and the cursor update become durable
together. -/
def commitBatch (db : DB) (pend : Pending) (name : String) (maxSeq : Nat) :
    DB :=
  { db with
    prices := db.prices ++ pend.prices
    dead_letters := db.dead_letters ++ pend.dead_letters
    offsets := update_offset db.offsets name maxSeq }

/-- One iteration of the while-loop of service.run (lines 203-277): read
the cursor (creating it on first run), fetch a batch; on an empty fetch
either gap-skip to the global max seq and re-poll without sleeping, or
sleep; on a non-empty fetch process it, then either commit-and-advance
(no sleep), or — when an exception escaped — roll back the pending writes
and sleep. -/
def runCycle (cfg : ParserConfig) (oracle : Nat → OracleReply) (k : Nat)
    (db : DB) : CycleResult :=
  let res := get_current_offset db.offsets cfg.parser_name
  let off := res.1
  let db1 : DB := { db with offsets := res.2 }
  let events := fetchBatch cfg db1 off
  if events.isEmpty then
    match globalMaxSeq db1 with
    | some m =>
      if off < m then
        ⟨{ db1 with offsets := update_offset db1.offsets cfg.parser_name m },
         k, false⟩
      else ⟨db1, k, true⟩
    | none => ⟨db1, k, true⟩
  else
    match processBatch cfg oracle events k ⟨[], []⟩ off with
    | (none, pend, k1, maxSeq) =>
      ⟨commitBatch db1 pend cfg.parser_name maxSeq, k1, false⟩
    | (some _, _, k1, _) => ⟨db1, k1, true⟩

/-! ## Derived definitions and concrete fixtures used by the theorems -/

/-- The seq tracked by the max_seq variable of the batch loop: the seq of
the last processed event, or the starting value for an empty batch. -/
def lastSeqOf : List RawEvent → Nat → Nat
  | [], m => m
  | ev :: rest, _ => lastSeqOf rest ev.seq

/-- The dead letter written after two failed oracle calls for an event. -/
def llmErrorDL (ev : RawEvent) : DeadLetter :=
  mkDeadLetter ev "llm_error" "LLM failed after 2 attempts" none

/-- Modelled from the claim wording (C9): one allowlist dimension passes
when the list is empty or the lowercased value (absent read as empty) is a
member. -/
def dimOk (allow : List String) (v : Option String) : Prop :=
  allow = [] ∨ pyLower (v.getD "") ∈ allow

/-- Configuration with sourceFilter = \x7bwhatsapp\x7d and the other
allowlists empty, text heuristic off (the C9 scenario). -/
def waOnlyCfg : ParserConfig :=
  ⟨["whatsapp"], [], [], false, 10, "pricing_v1"⟩

/-- Small event constructor for concrete fixtures. -/
def mkTestEvent (id seq : Nat) (st text : Option String) : RawEvent :=
  ⟨id, seq, st, none, none, none, text, none, 0⟩

/-- Oracle that always returns unparseable output (None). -/
def noResultOracle : Nat → OracleReply := fun _ => .noResult

/-- A valid extraction whose only offer is inconsistent: total_kg = 100
against an item sum of 10 (relative gap 9, far above the tolerance). -/
def c1Extraction : PricingExtraction :=
  ⟨[⟨some "Boat A", some "salmon", some "THB", some 100,
     [⟨none, none, some 10, some 12⟩]⟩], 1⟩

/-- Candidate event for the C1 scenario. -/
def c1Event : RawEvent := mkTestEvent 1 5 (some "whatsapp") (some "Salmon 100 kg")

/-- Storage state holding just the C1 event, cursor at 0. -/
def c1DB : DB := ⟨[c1Event], [], [], [⟨"pricing_v1", 0⟩]⟩

/-- Oracle that always answers with the C1 extraction. -/
def c1Oracle : Nat → OracleReply := fun _ => .output c1Extraction

/-- Three-candidate batch for the C2 scenario. -/
def c2DB : DB :=
  ⟨[mkTestEvent 1 1 (some "whatsapp") (some "a"),
    mkTestEvent 2 2 (some "whatsapp") (some "b"),
    mkTestEvent 3 3 (some "whatsapp") (some "c")], [], [],
   [⟨"pricing_v1", 0⟩]⟩

/-- Oracle for the C2 scenario: entries 1 and 2 fail twice each (four None
replies, both dead-letter in memory), then the fifth call — the first for
entry 3 — raises unavailability. -/
def c2Oracle : Nat → OracleReply :=
  fun n => if n < 4 then .noResult else .unavailable

/-- Single-candidate storage state for the C5 witness. -/
def c5DB : DB :=
  ⟨[mkTestEvent 7 42 (some "whatsapp") (some "fish")], [], [],
   [⟨"pricing_v1", 0⟩]⟩

/-- Storage state for the C7 witness: entries at seq 5, 6, 7, none matching
the whatsapp allowlist, cursor at 0. -/
def c7DB : DB :=
  ⟨[mkTestEvent 1 5 (some "telegram") none,
    mkTestEvent 2 6 (some "telegram") none,
    mkTestEvent 3 7 (some "telegram") none], [], [],
   [⟨"pricing_v1", 0⟩]⟩

/-- The incomplete item of the completeness-filter example: pricePerKg
present (12.5), size and quantityKg both absent. -/
def c8Item : PricingItem := ⟨none, none, none, some (25/2)⟩

/-- Extraction whose only offer carries only the incomplete item. -/
def c8Ex : PricingExtraction := ⟨[⟨some "A", none, none, none, [c8Item]⟩], 1/2⟩

/-- A stale structured price row for raw_event_id 9, left by a prior run. -/
def c8Stale : StructuredPrice :=
  mkStructuredPrice 9 1 0 c8Ex c8Ex ⟨none, none, none, none, []⟩ c8Item

/-! ## Helper lemmas -/

/-- The truthiness-filtered quantity sum of the source equals the plain sum
with absent quantities read as 0. -/
theorem filterMapQty_sum (l : List PricingItem) :
    (l.filterMap (fun it =>
      match it.quantity_kg with
      | none => none
      | some q => if q = 0 then none else some q)).sum
      = (l.map (fun it => it.quantity_kg.getD 0)).sum := by
  induction l with
  | nil => rfl
  | cons it rest ih =>
    cases h : it.quantity_kg with
    | none => simp [List.filterMap_cons, h, ih]
    | some q =>
      by_cases hq : q = 0
      · simp [List.filterMap_cons, h, hq, ih]
      · simp [List.filterMap_cons, h, hq, ih]

/-- Looking up the cursor after an unconditional update yields the new seq
whenever a row for the name exists, whatever the stored value was. -/
theorem lookup_update_offset (rows : List OffsetRow) (name : String)
    (new_seq : Nat) :
    lookupOffset (update_offset rows name new_seq) name
      = (lookupOffset rows name).map (fun _ => new_seq) := by
  induction rows with
  | nil => rfl
  | cons r rest ih =>
    by_cases h : r.parser_name = name
    · simp [update_offset, lookupOffset, List.find?_cons, h]
    · have hb : (r.parser_name == name) = false := by
        simp [h]
      simp only [update_offset, List.map_cons, if_neg h] at *
      simp only [lookupOffset, List.find?_cons, hb] at *
      exact ih

/-- Every row inserted by persist_extraction carries the given
raw_event_id. -/
theorem extractionRows_raw_event_id (rid seq ts : Nat)
    (ex raw : PricingExtraction) :
    ∀ r ∈ extractionRows rid seq ts ex raw, r.raw_event_id = rid := by
  intro r hr
  simp only [extractionRows, List.mem_flatMap, List.mem_map] at hr
  obtain ⟨o, _, it, _, rfl⟩ := hr
  rfl

/-! ## Claim C10 -/

/-- Claim C10: the total-kg consistency check returns true whenever
total_kg is absent; against the plain sum of the complete items quantities
(absent read as 0) it demands exact equality with 0 when the sum is zero,
and the 10 percent relative bound otherwise. Stated as equality of the
source definition with the check written from the claim wording. -/
theorem C10_total_kg_consistency_semantics (o : Offer) :
    o.check_total_kg_consistency TOTAL_KG_TOLERANCE = claimTotalKgCheck o := by
  unfold Offer.check_total_kg_consistency claimTotalKgCheck
  cases o.total_kg with
  | none => rfl
  | some t =>
    simp only [Offer.items_sum_src, filterMapQty_sum]

/-! ## Claim C3 -/

/-- Claim C3 counterexample: update_offset does not fail on a backward
move — with the cursor stored at 5, updating to 3 succeeds and leaves the
cursor at 3, which is below 5. -/
theorem C3_counterexample_backward_update_succeeds :
    lookupOffset (update_offset [⟨"pricing_v1", 5⟩] "pricing_v1" 3)
        "pricing_v1" = some 3
    ∧ 3 < 5 := by
  constructor
  · rfl
  · decide

/-- Claim C3 as amended: update_offset sets last_seq for the named parser
unconditionally and never fails, for every seq value — including one below
the stored cursor; monotonicity is not enforced by the offset manager. -/
theorem C3_amended_update_offset_unconditional (rows : List OffsetRow)
    (name : String) (new_seq : Nat) :
    lookupOffset (update_offset rows name new_seq) name
      = (lookupOffset rows name).map (fun _ => new_seq) :=
  lookup_update_offset rows name new_seq

/-! ## Claim C4 -/

/-- Claim C4: persist is idempotent under replay — calling
persist_extraction twice with the same raw_event_id and the same extraction
leaves exactly the rows of a single call, and after a call the rows for the
raw_event_id are exactly those derived from the given extraction (any stale
rows from a prior, different extraction are gone). -/
theorem C4_persist_idempotent (prices : List StructuredPrice)
    (rid seq ts : Nat) (ex raw : PricingExtraction) :
    persist_extraction (persist_extraction prices rid seq ts ex raw).1
        rid seq ts ex raw
      = persist_extraction prices rid seq ts ex raw
    ∧ (persist_extraction prices rid seq ts ex raw).1.filter
        (fun r => r.raw_event_id == rid)
      = extractionRows rid seq ts ex raw := by
  have hall : ∀ r ∈ extractionRows rid seq ts ex raw, r.raw_event_id = rid :=
    extractionRows_raw_event_id rid seq ts ex raw
  have hkeep : (extractionRows rid seq ts ex raw).filter
      (fun r => r.raw_event_id == rid) = extractionRows rid seq ts ex raw := by
    rw [List.filter_eq_self]
    intro r hr
    simp [hall r hr]
  have hdrop : (extractionRows rid seq ts ex raw).filter
      (fun r => !(r.raw_event_id == rid)) = [] := by
    rw [List.filter_eq_nil_iff]
    intro r hr
    simp [hall r hr]
  have hpruned : (prices.filter (fun r => !(r.raw_event_id == rid))).filter
      (fun r => r.raw_event_id == rid) = [] := by
    rw [List.filter_eq_nil_iff]
    intro r hr
    simp only [List.mem_filter, Bool.not_eq_true'] at hr
    simp [hr.2]
  have hfilter : prices.filter
        (fun a => !(a.raw_event_id == rid) && !(a.raw_event_id == rid))
      = prices.filter (fun r => !(r.raw_event_id == rid)) := by
    apply List.filter_congr
    intro r _
    cases h : (r.raw_event_id == rid) <;> simp [h]
  constructor
  · unfold persist_extraction
    simp only [List.filter_append, hdrop, List.filter_filter, List.append_nil,
      hfilter]
  · unfold persist_extraction
    simp only [List.filter_append, hkeep, hpruned, List.nil_append]

/-! ## Claim C6 -/

/-- The endpoint loop raises unavailability exactly when every attempt is a
connect-level failure. -/
theorem attemptLoop_unavailable_iff (l : List AttemptResult) :
    attemptLoop l = .unavailable ↔ ∀ b ∈ l, b = .connectFail := by
  induction l with
  | nil => simp [attemptLoop]
  | cons b rest ih =>
    cases b with
    | connectFail => simp [attemptLoop, ih]
    | httpError => simp [attemptLoop]
    | success p => cases p <;> simp [attemptLoop]

/-- Connect-level failures are skipped without affecting the outcome of the
remaining attempts. -/
theorem attemptLoop_skip_connectFail (pre rest : List AttemptResult)
    (h : ∀ b ∈ pre, b = .connectFail) :
    attemptLoop (pre ++ rest) = attemptLoop rest := by
  induction pre with
  | nil => rfl
  | cons b pre ih =>
    have hb := h b (List.mem_cons_self b pre)
    subst hb
    simpa [attemptLoop] using ih (fun x hx => h x (List.mem_cons_of_mem _ hx))

/-- Claim C6: call_llm raises the unavailability error exactly when no
configured endpoint accepts a connection; and once an endpoint accepts the
connection but the call fails at the protocol level, the result is no
result (None), whatever later endpoints would have answered — they are not
tried. -/
theorem C6_unavailable_iff_no_connect :
    (∀ (primary fallback : String) (net : String → AttemptResult),
      call_llm primary fallback net = .unavailable ↔
        ∀ e ∈ buildEndpoints primary fallback, net e = .connectFail)
    ∧ (∀ pre rest : List AttemptResult, (∀ b ∈ pre, b = .connectFail) →
        attemptLoop (pre ++ .httpError :: rest) = .noResult) := by
  constructor
  · intro primary fallback net
    unfold call_llm
    rw [attemptLoop_unavailable_iff]
    constructor
    · intro h e he
      exact h (net e) (List.mem_map_of_mem net he)
    · intro h b hb
      obtain ⟨e, he, rfl⟩ := List.mem_map.mp hb
      exact h e he
  · intro pre rest h
    rw [attemptLoop_skip_connectFail pre _ h]
    rfl

/-- Claim C6 witness: with the primary refusing the connection and the
fallback accepting but failing at the protocol level, call_llm returns no
result even though a further (hypothetical) attempt would have
succeeded. -/
theorem C6_witness :
    attemptLoop ([.connectFail] ++ .httpError ::
        [.success (some c1Extraction)]) = .noResult :=
  C6_unavailable_iff_no_connect.2 [.connectFail] [.success (some c1Extraction)]
    (by decide)

/-! ## Claim C8 -/

/-- Claim C8: persist_extraction keeps exactly one row per complete item
per offer — a row is in the resulting table exactly when it is a kept old
row for another raw_event_id or is built from a complete item of some offer
of the extraction; the inserted count is the total number of complete
items; and when no item is complete, zero rows are inserted yet the delete
of prior rows for the raw_event_id still happens. -/
theorem C8_persist_completeness_filter :
    (∀ (prices : List StructuredPrice) (rid seq ts : Nat)
        (ex raw : PricingExtraction) (r : StructuredPrice),
      r ∈ (persist_extraction prices rid seq ts ex raw).1 ↔
        ((r ∈ prices ∧ r.raw_event_id ≠ rid) ∨
         ∃ o ∈ ex.offers, ∃ it ∈ o.items, it.is_complete = true ∧
           r = mkStructuredPrice rid seq ts ex raw o it))
    ∧ (∀ (prices : List StructuredPrice) (rid seq ts : Nat)
        (ex raw : PricingExtraction),
      (persist_extraction prices rid seq ts ex raw).2
        = (ex.offers.map (fun o => o.complete_items.length)).sum)
    ∧ (∀ (prices : List StructuredPrice) (rid seq ts : Nat)
        (ex raw : PricingExtraction),
      (∀ o ∈ ex.offers, ∀ it ∈ o.items, it.is_complete = false) →
        (persist_extraction prices rid seq ts ex raw).2 = 0
        ∧ (persist_extraction prices rid seq ts ex raw).1
            = prices.filter (fun r => !(r.raw_event_id == rid))) := by
  have hrows : ∀ (rid seq ts : Nat) (ex raw : PricingExtraction)
      (r : StructuredPrice),
      r ∈ extractionRows rid seq ts ex raw ↔
        ∃ o ∈ ex.offers, ∃ it ∈ o.items, it.is_complete = true ∧
          r = mkStructuredPrice rid seq ts ex raw o it := by
    intro rid seq ts ex raw r
    simp only [extractionRows, List.mem_flatMap, List.mem_map,
      Offer.complete_items, List.mem_filter]
    constructor
    · rintro ⟨o, ho, it, ⟨hit, hc⟩, rfl⟩
      exact ⟨o, ho, it, hit, hc, rfl⟩
    · rintro ⟨o, ho, it, hit, hc, rfl⟩
      exact ⟨o, ho, it, ⟨hit, hc⟩, rfl⟩
  refine ⟨?_, ?_, ?_⟩
  · intro prices rid seq ts ex raw r
    unfold persist_extraction
    simp only [List.mem_append, List.mem_filter, Bool.not_eq_true',
      beq_eq_false_iff_ne, ne_eq, hrows]
  · intro prices rid seq ts ex raw
    unfold persist_extraction
    simp only [extractionRows, List.length_flatMap, List.map_map,
      Function.comp_def, List.length_map]
  · intro prices rid seq ts ex raw hnone
    have hempty : extractionRows rid seq ts ex raw = [] := by
      rw [List.eq_nil_iff_forall_not_mem]
      intro r hr
      rw [hrows] at hr
      obtain ⟨o, ho, it, hit, hc, _⟩ := hr
      rw [hnone o ho it hit] at hc
      cases hc
    constructor
    · unfold persist_extraction
      simp [hempty]
    · unfold persist_extraction
      simp [hempty]

/-- Claim C8 witness: an extraction whose only item has pricePerKg 12.5 and
neither size nor quantity inserts zero rows, while the stale prior row for
the same raw_event_id is still deleted. -/
theorem C8_witness :
    (persist_extraction [c8Stale] 9 5 0 c8Ex c8Ex).2 = 0
    ∧ (persist_extraction [c8Stale] 9 5 0 c8Ex c8Ex).1
        = [c8Stale].filter (fun r => !(r.raw_event_id == 9)) :=
  C8_persist_completeness_filter.2.2 [c8Stale] 9 5 0 c8Ex c8Ex (by decide)

/-! ## Claim C9 -/

/-- Claim C9: the metadata layer is the conjunction of three independent
case-insensitive allowlists in which an empty list is permissive; under
sourceFilter = whatsapp-only, a telegram entry is rejected whatever its
package and app, and any entry whose source lowercases to whatsapp passes
the metadata layer. -/
theorem C9_metadata_filter_conjunction :
    (∀ (cfg : ParserConfig) (st pk an : Option String),
      passes_metadata_filter cfg st pk an = true ↔
        (dimOk cfg.source_filter st ∧ dimOk cfg.package_filter pk
          ∧ dimOk cfg.app_filter an))
    ∧ (∀ pk an : Option String,
        passes_metadata_filter waOnlyCfg (some "telegram") pk an = false)
    ∧ (∀ (st : String) (pk an : Option String), pyLower st = "whatsapp" →
        passes_metadata_filter waOnlyCfg (some st) pk an = true) := by
  refine ⟨?_, ?_, ?_⟩
  · intro cfg st pk an
    unfold passes_metadata_filter dimOk orEmpty
    by_cases h1 : cfg.source_filter = [] <;>
      by_cases h2 : cfg.package_filter = [] <;>
        by_cases h3 : cfg.app_filter = [] <;>
          simp [h1, h2, h3, List.isEmpty_iff]
  · intro pk an
    rfl
  · intro st pk an h
    unfold passes_metadata_filter
    simp [waOnlyCfg, orEmpty, h]

/-- Claim C9 witness: a WhatsApp-sourced entry with a telegram package
passes the metadata layer, and a telegram-sourced entry with a whatsapp
package is rejected. -/
theorem C9_witness :
    passes_metadata_filter waOnlyCfg (some "WhatsApp")
        (some "org.telegram.messenger") none = true
    ∧ passes_metadata_filter waOnlyCfg (some "telegram")
        (some "com.whatsapp") none = false :=
  ⟨C9_metadata_filter_conjunction.2.2 "WhatsApp"
      (some "org.telegram.messenger") none (by decide),
   C9_metadata_filter_conjunction.2.1 (some "com.whatsapp") none⟩

/-! ## Claim C1 -/

/-- Claim C1 is contradicted by the code: on a validated extraction the
service evaluates extraction.check_total_kg_consistency() at service.py
line 141, but PricingExtraction defines no such attribute — the method
lives on Offer — so every validated extraction (here one that also fails
the 10 percent check) raises AttributeError before persist_extraction is
reached, the batch is rolled back and the cycle ends in a sleep instead of
persisting. -/
theorem C1_consistency_check_crashes :
    validateExtraction c1Extraction = true
    ∧ (c1Extraction.offers.all
        (fun o => o.check_total_kg_consistency TOTAL_KG_TOLERANCE)) = false
    ∧ isCand waOnlyCfg c1Event = true
    ∧ processEvent waOnlyCfg c1Oracle c1Event 0 ⟨[], []⟩
        = (.raised .attributeError, ⟨[], []⟩, 1)
    ∧ runCycle waOnlyCfg c1Oracle 0 c1DB = ⟨c1DB, 1, true⟩ := by
  refine ⟨by decide, ?_, by decide, by decide, by decide⟩
  norm_num [c1Extraction, Offer.check_total_kg_consistency,
    Offer.items_sum_src, Offer.complete_items, PricingItem.is_complete,
    TOTAL_KG_TOLERANCE, List.filterMap_cons]

/-! ## Driver-level helper lemmas -/

/-- After get_current_offset, the cursor row for the name exists and holds
the returned value. -/
theorem lookup_get_current_offset (rows : List OffsetRow) (name : String)
    (off : Nat) (rows1 : List OffsetRow)
    (h : get_current_offset rows name = (off, rows1)) :
    lookupOffset rows1 name = some off := by
  unfold get_current_offset at h
  cases hl : lookupOffset rows name with
  | some s =>
    rw [hl] at h
    obtain ⟨rfl, rfl⟩ := Prod.mk.injEq .. ▸ h
    exact hl
  | none =>
    rw [hl] at h
    obtain ⟨rfl, rfl⟩ := Prod.mk.injEq .. ▸ h
    unfold lookupOffset at hl ⊢
    cases hf : List.find? (fun r => r.parser_name == name) rows with
    | some r =>
      rw [hf] at hl
      simp at hl
    | none =>
      rw [List.find?_append, hf]
      simp [List.find?_cons]

/-- Changing the offsets table does not change the raw-events maximum. -/
theorem globalMaxSeq_set_offsets (db : DB) (l : List OffsetRow) :
    globalMaxSeq { db with offsets := l } = globalMaxSeq db := rfl

/-- When no event beyond the cursor matches the server-side allowlists, the
batch fetch is empty. -/
theorem fetchBatch_eq_nil (cfg : ParserConfig) (db : DB) (off : Nat)
    (hnomatch : ∀ e ∈ db.raw_events, off < e.seq →
      sqlMetadataMatch cfg e = false) :
    fetchBatch cfg db off = [] := by
  unfold fetchBatch
  have hfil : db.raw_events.filter
      (fun e => decide (off < e.seq) && sqlMetadataMatch cfg e) = [] := by
    rw [List.filter_eq_nil_iff]
    intro e he
    by_cases h : off < e.seq
    · simp [h, hnomatch e he h]
    · simp [h]
  rw [hfil]
  simp

/-- Reduction of runCycle in the gap-skip branch: empty fetch while the
global maximum exceeds the cursor. -/
theorem runCycle_gap_skip (cfg : ParserConfig) (oracle : Nat → OracleReply)
    (k : Nat) (db : DB) (off : Nat) (offsets1 : List OffsetRow) (m : Nat)
    (hoff : get_current_offset db.offsets cfg.parser_name = (off, offsets1))
    (hfetch : fetchBatch cfg { db with offsets := offsets1 } off = [])
    (hmax : globalMaxSeq db = some m) (hlt : off < m) :
    runCycle cfg oracle k db
      = ⟨{ db with offsets := update_offset offsets1 cfg.parser_name m },
         k, false⟩ := by
  unfold runCycle
  rw [hoff]
  simp only [globalMaxSeq_set_offsets, hmax, hfetch, List.isEmpty_nil,
    if_true, hlt]

/-- Reduction of runCycle when the batch aborts with an exception: the
pending writes are discarded and the cycle ends in a sleep. -/
theorem runCycle_batch_abort (cfg : ParserConfig) (oracle : Nat → OracleReply)
    (k : Nat) (db : DB) (off : Nat) (offsets1 : List OffsetRow) (e : PyError)
    (pend1 : Pending) (k1 m1 : Nat)
    (hoff : get_current_offset db.offsets cfg.parser_name = (off, offsets1))
    (hne : fetchBatch cfg { db with offsets := offsets1 } off ≠ [])
    (hpb : processBatch cfg oracle
        (fetchBatch cfg { db with offsets := offsets1 } off) k ⟨[], []⟩ off
      = (some e, pend1, k1, m1)) :
    runCycle cfg oracle k db = ⟨{ db with offsets := offsets1 }, k1, true⟩ := by
  unfold runCycle
  rw [hoff]
  simp only [hpb, List.isEmpty_iff, hne, if_false]

/-- Reduction of runCycle when every event of the batch reaches a terminal
outcome: the pending writes and the cursor advance commit together. -/
theorem runCycle_batch_commit (cfg : ParserConfig)
    (oracle : Nat → OracleReply) (k : Nat) (db : DB) (off : Nat)
    (offsets1 : List OffsetRow) (pend1 : Pending) (k1 m1 : Nat)
    (hoff : get_current_offset db.offsets cfg.parser_name = (off, offsets1))
    (hne : fetchBatch cfg { db with offsets := offsets1 } off ≠ [])
    (hpb : processBatch cfg oracle
        (fetchBatch cfg { db with offsets := offsets1 } off) k ⟨[], []⟩ off
      = (none, pend1, k1, m1)) :
    runCycle cfg oracle k db
      = ⟨commitBatch { db with offsets := offsets1 } pend1 cfg.parser_name m1,
         k1, false⟩ := by
  unfold runCycle
  rw [hoff]
  simp only [hpb, List.isEmpty_iff, hne, if_false]

/-! ## Claim C7 -/

/-- Claim C7: with log entries beyond the cursor (global max m above the
offset) but an empty filtered fetch because nothing matches the allowlists,
one cycle advances the cursor straight to m, leaves structured prices and
dead letters untouched, and re-polls without sleeping. -/
theorem C7_gap_skip (cfg : ParserConfig) (oracle : Nat → OracleReply)
    (k : Nat) (db : DB) (off : Nat) (offsets1 : List OffsetRow) (m : Nat)
    (hoff : get_current_offset db.offsets cfg.parser_name = (off, offsets1))
    (hnomatch : ∀ e ∈ db.raw_events, off < e.seq →
      sqlMetadataMatch cfg e = false)
    (hmax : globalMaxSeq db = some m)
    (hlt : off < m) :
    runCycle cfg oracle k db
      = ⟨{ db with offsets := update_offset offsets1 cfg.parser_name m },
         k, false⟩
    ∧ (runCycle cfg oracle k db).db.prices = db.prices
    ∧ (runCycle cfg oracle k db).db.dead_letters = db.dead_letters
    ∧ lookupOffset (runCycle cfg oracle k db).db.offsets cfg.parser_name
        = some m := by
  have hfetch : fetchBatch cfg { db with offsets := offsets1 } off = [] :=
    fetchBatch_eq_nil cfg _ off hnomatch
  have hrun := runCycle_gap_skip cfg oracle k db off offsets1 m hoff hfetch
    hmax hlt
  refine ⟨hrun, ?_, ?_, ?_⟩
  · rw [hrun]
  · rw [hrun]
  · rw [hrun]
    simp only
    rw [lookup_update_offset, lookup_get_current_offset db.offsets
      cfg.parser_name off offsets1 hoff]
    rfl

/-- Claim C7 witness: entries at seq 5, 6, 7, all telegram-sourced under a
whatsapp-only allowlist, with the cursor at 0: the cycle moves the cursor
to 7, writes nothing, and does not sleep. -/
theorem C7_witness :
    runCycle waOnlyCfg noResultOracle 0 c7DB
      = ⟨{ c7DB with offsets := [⟨"pricing_v1", 7⟩] }, 0, false⟩
    ∧ (runCycle waOnlyCfg noResultOracle 0 c7DB).db.prices = c7DB.prices
    ∧ (runCycle waOnlyCfg noResultOracle 0 c7DB).db.dead_letters
        = c7DB.dead_letters
    ∧ lookupOffset (runCycle waOnlyCfg noResultOracle 0 c7DB).db.offsets
        "pricing_v1" = some 7 :=
  C7_gap_skip waOnlyCfg noResultOracle 0 c7DB 0 [⟨"pricing_v1", 0⟩] 7
    rfl (by decide) rfl (by decide)

/-! ## Claim C2 -/

/-- Claim C2: when the oracle raises unavailability for some entry of a
non-empty batch, the whole cycle aborts atomically — the committed state
keeps its prices, dead letters and cursor exactly as they were after the
cursor read (no dead letter for the entry, no offset advance, every pending
write of earlier batch-mates discarded), the loop sleeps, and the cursor
still reads the same offset so the next cycle retries the same batch. -/
theorem C2_oracle_unavailable_aborts_batch (cfg : ParserConfig)
    (oracle : Nat → OracleReply) (k : Nat) (db : DB) (off : Nat)
    (offsets1 : List OffsetRow) (pend1 : Pending) (k1 m1 : Nat)
    (hoff : get_current_offset db.offsets cfg.parser_name = (off, offsets1))
    (hne : fetchBatch cfg { db with offsets := offsets1 } off ≠ [])
    (habort : processBatch cfg oracle
        (fetchBatch cfg { db with offsets := offsets1 } off) k ⟨[], []⟩ off
      = (some .llmUnavailable, pend1, k1, m1)) :
    runCycle cfg oracle k db = ⟨{ db with offsets := offsets1 }, k1, true⟩
    ∧ lookupOffset offsets1 cfg.parser_name = some off :=
  ⟨runCycle_batch_abort cfg oracle k db off offsets1 .llmUnavailable pend1
     k1 m1 hoff hne habort,
   lookup_get_current_offset db.offsets cfg.parser_name off offsets1 hoff⟩

/-- Claim C2 witness: a three-candidate batch in which entries 1 and 2
already dead-lettered in memory (two None replies each) and the fifth
oracle call — the first for entry 3 — raises unavailability: the cycle
leaves the storage exactly as it was (no rows for entries 1 or 2, cursor
still 0) and sleeps. -/
theorem C2_witness :
    runCycle waOnlyCfg c2Oracle 0 c2DB = ⟨c2DB, 5, true⟩
    ∧ lookupOffset [⟨"pricing_v1", 0⟩] "pricing_v1" = some 0 :=
  C2_oracle_unavailable_aborts_batch waOnlyCfg c2Oracle 0 c2DB 0
    [⟨"pricing_v1", 0⟩]
    ⟨[], [llmErrorDL (mkTestEvent 1 1 (some "whatsapp") (some "a")),
          llmErrorDL (mkTestEvent 2 2 (some "whatsapp") (some "b"))]⟩
    5 2 rfl (by decide) (by decide)

/-! ## Claim C5 -/

/-- A candidate whose two oracle calls both return None is dead-lettered
with llm_error and reported as successfully processed. -/
theorem processEvent_noResult (cfg : ParserConfig)
    (oracle : Nat → OracleReply) (ev : RawEvent) (k : Nat) (pend : Pending)
    (h0 : oracle k = .noResult) (h1 : oracle (k + 1) = .noResult)
    (hc : isCand cfg ev = true) :
    processEvent cfg oracle ev k pend
      = (.ok, ⟨pend.prices, pend.dead_letters ++ [llmErrorDL ev]⟩, k + 2) := by
  unfold processEvent
  rw [hc, h0, h1]
  rfl

/-- A non-candidate is skipped with no writes and no oracle calls. -/
theorem processEvent_nonCand (cfg : ParserConfig)
    (oracle : Nat → OracleReply) (ev : RawEvent) (k : Nat) (pend : Pending)
    (hc : isCand cfg ev = false) :
    processEvent cfg oracle ev k pend = (.ok, pend, k) := by
  unfold processEvent
  rw [hc]
  rfl

/-- Batch loop under an oracle that always returns unparseable output:
no exception, one llm_error dead letter per candidate, two oracle calls per
candidate, and max_seq ending at the last event. -/
theorem processBatch_noResult (cfg : ParserConfig)
    (oracle : Nat → OracleReply) (horacle : ∀ n, oracle n = .noResult) :
    ∀ (events : List RawEvent) (k : Nat) (pend : Pending) (maxSeq : Nat),
    processBatch cfg oracle events k pend maxSeq
      = (none,
         ⟨pend.prices, pend.dead_letters ++
           ((events.filter (fun e => isCand cfg e)).map llmErrorDL)⟩,
         k + 2 * (events.filter (fun e => isCand cfg e)).length,
         lastSeqOf events maxSeq) := by
  intro events
  induction events with
  | nil =>
    intro k pend maxSeq
    simp [processBatch, lastSeqOf]
  | cons ev rest ih =>
    intro k pend maxSeq
    by_cases hc : isCand cfg ev = true
    · simp only [processBatch,
        processEvent_noResult cfg oracle ev k pend (horacle k)
          (horacle (k + 1)) hc, ih]
      simp only [List.filter_cons, hc, if_true, List.map_cons,
        List.length_cons, lastSeqOf, List.append_assoc,
        List.singleton_append, Prod.mk.injEq, and_true, true_and]
      omega
    · have hc' : isCand cfg ev = false := by
        simpa using hc
      simp only [processBatch,
        processEvent_nonCand cfg oracle ev k pend hc', ih]
      simp [List.filter_cons, hc', lastSeqOf]

/-- The max_seq tracker ends at the starting value or at the seq of some
event of the batch. -/
theorem lastSeqOf_cases : ∀ (events : List RawEvent) (m0 : Nat),
    lastSeqOf events m0 = m0 ∨ ∃ y ∈ events, lastSeqOf events m0 = y.seq := by
  intro events
  induction events with
  | nil => intro m0; exact Or.inl rfl
  | cons ev rest ih =>
    intro m0
    rcases ih ev.seq with h | ⟨y, hy, h⟩
    · exact Or.inr ⟨ev, List.mem_cons_self ev rest,
        by simpa [lastSeqOf] using h⟩
    · exact Or.inr ⟨y, List.mem_cons_of_mem _ hy,
        by simpa [lastSeqOf] using h⟩

/-- In a seq-sorted batch, every event seq is at most the final
max_seq. -/
theorem lastSeqOf_ge : ∀ (events : List RawEvent) (m0 : Nat) (ev : RawEvent),
    ev ∈ events → List.Pairwise seqLE events →
    ev.seq ≤ lastSeqOf events m0 := by
  intro events
  induction events with
  | nil => intro m0 ev h; cases h
  | cons e rest ih =>
    intro m0 ev hmem hsort
    rw [List.pairwise_cons] at hsort
    rcases List.mem_cons.mp hmem with rfl | hr
    · rcases lastSeqOf_cases rest ev.seq with h | ⟨y, hy, h⟩
      · simp [lastSeqOf, h]
      · have hle : ev.seq ≤ y.seq := hsort.1 y hy
        simpa [lastSeqOf, h] using hle
    · simpa [lastSeqOf] using ih e.seq ev hr hsort.2

/-- The fetched batch is sorted by seq (ORDER BY seq ASC). -/
theorem fetchBatch_sorted (cfg : ParserConfig) (db : DB) (off : Nat) :
    List.Pairwise seqLE (fetchBatch cfg db off) := by
  unfold fetchBatch
  exact List.Pairwise.sublist (List.take_sublist _ _)
    (List.sorted_insertionSort seqLE _)

/-- Among the dead letters generated for a batch with distinct event ids,
exactly one carries the id of a given candidate. -/
theorem filter_llmError_dls (cfg : ParserConfig) :
    ∀ (events : List RawEvent) (ev : RawEvent), ev ∈ events →
    isCand cfg ev = true → ((events.map (fun e => e.id)).Nodup) →
    ((events.filter (fun e => isCand cfg e)).map llmErrorDL).filter
        (fun d => d.raw_event_id == ev.id)
      = [llmErrorDL ev] := by
  intro events
  induction events with
  | nil => intro ev h; cases h
  | cons e rest ih =>
    intro ev hmem hc hids
    rw [List.map_cons, List.nodup_cons] at hids
    obtain ⟨hnotin, hnd⟩ := hids
    rcases List.mem_cons.mp hmem with rfl | hr
    · have hrest : ((rest.filter (fun e => isCand cfg e)).map
          llmErrorDL).filter (fun d => d.raw_event_id == ev.id) = [] := by
        rw [List.filter_eq_nil_iff]
        intro d hd
        rw [List.mem_map] at hd
        obtain ⟨e', he', rfl⟩ := hd
        have hne : e'.id ≠ ev.id := by
          intro h
          exact hnotin
            (h ▸ List.mem_map_of_mem _ (List.mem_of_mem_filter he'))
        simp [llmErrorDL, mkDeadLetter, hne]
      simp [List.filter_cons, hc, llmErrorDL, mkDeadLetter, hrest]
    · have hne : (e.id == ev.id) = false := by
        have : e.id ≠ ev.id := by
          intro h
          exact hnotin (h ▸ List.mem_map_of_mem _ hr)
        simp [this]
      by_cases hce : isCand cfg e = true
      · simp [List.filter_cons, hce, llmErrorDL, mkDeadLetter, hne,
          ih ev hr hc hnd]
      · simp [List.filter_cons, hce, ih ev hr hc hnd]

/-- Claim C5: for every candidate entry whose two successive oracle calls
both return unparseable output, processing returns success after appending
exactly one llm_error dead letter; under an oracle answering every call
that way, the whole batch commits — the cycle does not sleep, the durable
dead letters for that entry grow by exactly that one record, and the
cursor advances to the last seq of the batch, at or past the entry. -/
theorem C5_double_failure_dead_letters (cfg : ParserConfig)
    (oracle : Nat → OracleReply) (db : DB) (k : Nat) (ev : RawEvent)
    (off : Nat) (offsets1 : List OffsetRow) (k0 : Nat) (pend : Pending)
    (horacle : ∀ n, oracle n = .noResult)
    (hoff : get_current_offset db.offsets cfg.parser_name = (off, offsets1))
    (hmem : ev ∈ fetchBatch cfg { db with offsets := offsets1 } off)
    (hcand : isCand cfg ev = true)
    (hids : ((fetchBatch cfg { db with offsets := offsets1 } off).map
        (fun e => e.id)).Nodup) :
    processEvent cfg oracle ev k0 pend
      = (.ok, ⟨pend.prices, pend.dead_letters ++ [llmErrorDL ev]⟩, k0 + 2)
    ∧ (runCycle cfg oracle k db).slept = false
    ∧ (runCycle cfg oracle k db).db.dead_letters.filter
        (fun d => d.raw_event_id == ev.id)
      = db.dead_letters.filter (fun d => d.raw_event_id == ev.id)
          ++ [llmErrorDL ev]
    ∧ lookupOffset (runCycle cfg oracle k db).db.offsets cfg.parser_name
        = some (lastSeqOf
            (fetchBatch cfg { db with offsets := offsets1 } off) off)
    ∧ ev.seq ≤ lastSeqOf
        (fetchBatch cfg { db with offsets := offsets1 } off) off := by
  have hne : fetchBatch cfg { db with offsets := offsets1 } off ≠ [] :=
    List.ne_nil_of_mem hmem
  have hpb := processBatch_noResult cfg oracle horacle
    (fetchBatch cfg { db with offsets := offsets1 } off) k ⟨[], []⟩ off
  have hrun := runCycle_batch_commit cfg oracle k db off offsets1 _ _ _
    hoff hne hpb
  refine ⟨processEvent_noResult cfg oracle ev k0 pend (horacle k0)
    (horacle (k0 + 1)) hcand, ?_, ?_, ?_, ?_⟩
  · rw [hrun]
  · rw [hrun]
    simp only [commitBatch]
    rw [List.filter_append]
    simp only [List.nil_append]
    rw [filter_llmError_dls cfg _ ev hmem hcand hids]
  · rw [hrun]
    simp only [commitBatch]
    rw [lookup_update_offset,
      lookup_get_current_offset db.offsets cfg.parser_name off offsets1 hoff]
    rfl
  · exact lastSeqOf_ge _ off ev hmem
      (fetchBatch_sorted cfg { db with offsets := offsets1 } off)

/-- Claim C5 witness: a single whatsapp candidate at seq 42 under an
always-unparseable oracle: success with exactly one llm_error dead letter,
no sleep, cursor advanced to 42. -/
theorem C5_witness :
    processEvent waOnlyCfg noResultOracle
        (mkTestEvent 7 42 (some "whatsapp") (some "fish")) 0 ⟨[], []⟩
      = (.ok, ⟨[], [llmErrorDL (mkTestEvent 7 42 (some "whatsapp")
          (some "fish"))]⟩, 2)
    ∧ (runCycle waOnlyCfg noResultOracle 0 c5DB).slept = false
    ∧ (runCycle waOnlyCfg noResultOracle 0 c5DB).db.dead_letters.filter
        (fun d => d.raw_event_id == 7)
      = [llmErrorDL (mkTestEvent 7 42 (some "whatsapp") (some "fish"))]
    ∧ lookupOffset (runCycle waOnlyCfg noResultOracle 0 c5DB).db.offsets
        "pricing_v1" = some 42
    ∧ 42 ≤ 42 :=
  C5_double_failure_dead_letters waOnlyCfg noResultOracle c5DB 0
    (mkTestEvent 7 42 (some "whatsapp") (some "fish")) 0
    [⟨"pricing_v1", 0⟩] 0 ⟨[], []⟩ (fun _ => rfl) rfl (by decide)
    (by decide) (by decide)

end NDS
